import Mathlib

/-!
Shallow embedding of the StraightUp desktop app core
(`src/frontend/tkinter_app.py`): the session/break state machine of
`ModernTkinterApp` (`start_session`, `pause_session`, `stop_session`,
`update_timer`) and the health aggregation of `HealthDataManager`
(`get_recent_health_data`, `get_health_summary`,
`_calculate_health_grade`, `_generate_sample_data`).

Modelling conventions:
* Instants (`datetime.now()` values) and durations are rationals, in
  seconds; `timedelta(minutes=m)` becomes `60 * m`.  Each operation takes
  the current instant `now` as an explicit argument.
* Python floats are modelled by exact rationals; `round(x, n)` is
  modelled by round-half-to-even decimal quantisation (`pyRound`).
* UI-only effects (widget configuration, messageboxes, `root.after`
  rescheduling) are dropped; only the state mutations are kept.
* `session_start_time` is initialised to `None` in Python and only read
  while a session is running (after `start_session` set it); it is
  modelled as a rational initialised to 0.
-/

/-- Python's `round` with `ndigits`: round-half-to-even decimal
quantisation, on exact rationals. -/
def pyRound (x : ℚ) (d : ℕ) : ℚ :=
  let y : ℚ := x * (10 : ℚ) ^ d
  let n : ℤ := ⌊y⌋
  let f : ℚ := y - n
  let r : ℤ :=
    if f < 1/2 then n
    else if 1/2 < f then n + 1
    else if n % 2 = 0 then n else n + 1
  (r : ℚ) / (10 : ℚ) ^ d

/-- The session/break state of `ModernTkinterApp`: the attributes set in
`__init__` and mutated by `start_session` / `pause_session` /
`stop_session` / `update_timer`. -/
structure AppState where
  session_running : Bool
  session_paused : Bool
  session_start_time : ℚ
  session_elapsed : ℚ
  break_freq_minutes : ℚ
  break_len_minutes : ℚ
  in_break : Bool
  next_break_time : Option ℚ
  break_end_time : Option ℚ
  deriving DecidableEq

/-- The state set up by `__init__` (lines 323–336): no session running,
no break scheduled, default break frequency/length of 5 minutes. -/
def initState : AppState :=
  { session_running := false
    session_paused := false
    session_start_time := 0
    session_elapsed := 0
    break_freq_minutes := 5
    break_len_minutes := 5
    in_break := false
    next_break_time := none
    break_end_time := none }

/-- Truthiness-plus-comparison `self.x and now >= self.x` for an optional
deadline: `False` when the field is `None`. -/
def dueAt (deadline : Option ℚ) (now : ℚ) : Bool :=
  match deadline with
  | none => false
  | some d => decide (d ≤ now)

/-- `update_timer` (lines 1602–1637): computes the displayed elapsed
seconds and, while running and not paused, evaluates the break machine
(enter a due break, then exit a finished break and reschedule the next
one).  Returns the new state and the displayed elapsed value. -/
def update_timer (now : ℚ) (s : AppState) : AppState × ℚ :=
  let current_elapsed : ℚ :=
    if s.session_running && !s.session_paused then
      s.session_elapsed + (now - s.session_start_time)
    else s.session_elapsed
  let s' : AppState :=
    if s.session_running && !s.session_paused then
      let s1 :=
        if !s.in_break && dueAt s.next_break_time now then
          { s with in_break := true
                   break_end_time := some (now + 60 * s.break_len_minutes) }
        else s
      let s2 :=
        if s1.in_break && dueAt s1.break_end_time now then
          { s1 with in_break := false
                    next_break_time := some (now + 60 * s1.break_freq_minutes)
                    break_end_time := none }
        else s1
      s2
    else s
  (s', current_elapsed)

/-- `start_session` (lines 1488–1525): unconditionally saves the chosen
break frequency/length, resets the break schedule, marks the session
running, zeroes the accumulated time, and finally calls `update_timer`. -/
def start_session (now f l : ℚ) (s : AppState) : AppState :=
  let s1 : AppState :=
    { s with break_freq_minutes := f
             break_len_minutes := l
             in_break := false
             next_break_time := some (now + 60 * f)
             break_end_time := none
             session_running := true
             session_paused := false
             session_start_time := now
             session_elapsed := 0 }
  (update_timer now s1).1

/-- `pause_session` (lines 1527–1547): returns unchanged when no session
is running; otherwise toggles `session_paused`, banking the elapsed time
on pause and restarting the clock on resume, and calls `update_timer`. -/
def pause_session (now : ℚ) (s : AppState) : AppState :=
  if s.session_running then
    let s1 : AppState :=
      if !s.session_paused then
        { s with session_paused := true
                 session_elapsed := s.session_elapsed + (now - s.session_start_time) }
      else
        { s with session_paused := false
                 session_start_time := now }
    (update_timer now s1).1
  else s

/-- `stop_session` (lines 1549–1600): returns unchanged when no session
is running; otherwise folds in the time since `session_start_time` when
not paused, clears the running/paused flags and the whole break
schedule. -/
def stop_session (now : ℚ) (s : AppState) : AppState :=
  if s.session_running then
    let s1 : AppState :=
      if !s.session_paused then
        { s with session_elapsed := s.session_elapsed + (now - s.session_start_time) }
      else s
    { s1 with session_running := false
              session_paused := false
              in_break := false
              next_break_time := none
              break_end_time := none }
  else s

/-- States reachable from the `__init__` state by the four session
operations, at arbitrary instants and with arbitrary break settings. -/
inductive Reachable : AppState → Prop
  | init : Reachable initState
  | start (now f l : ℚ) {s : AppState} : Reachable s → Reachable (start_session now f l s)
  | pause (now : ℚ) {s : AppState} : Reachable s → Reachable (pause_session now s)
  | tick (now : ℚ) {s : AppState} : Reachable s → Reachable ((update_timer now s).1)
  | stop (now : ℚ) {s : AppState} : Reachable s → Reachable (stop_session now s)

/-- The break-schedule invariant that actually holds for this code:
while a session is running `next_break_time` is always set (entering a
break does not clear it; it keeps its old, already-due value) and
`break_end_time` is set whenever `in_break`; while no session is running
all break state is cleared. -/
def BreakInv (s : AppState) : Prop :=
  (s.session_running = true →
    s.next_break_time ≠ none ∧ (s.in_break = true → s.break_end_time ≠ none)) ∧
  (s.session_running = false →
    s.in_break = false ∧ s.next_break_time = none ∧ s.break_end_time = none)

lemma update_timer_not_active (now : ℚ) {s : AppState}
    (h : (s.session_running && !s.session_paused) = false) :
    (update_timer now s).1 = s := by
  simp [update_timer, h]

lemma breakInv_update (now : ℚ) {s : AppState} (h : BreakInv s) :
    BreakInv ((update_timer now s).1) := by
  by_cases hact : (s.session_running && !s.session_paused) = true
  · have hr : s.session_running = true := by
      cases hsr : s.session_running <;> simp [hsr] at hact ⊢
    obtain ⟨h1, h2⟩ := h
    obtain ⟨hnb, hbe⟩ := h1 hr
    simp only [update_timer, hact, if_true]
    split_ifs with c1 c2 c2 <;>
      constructor <;> simp_all
  · rw [update_timer_not_active now (by simpa using hact)]
    exact h

lemma breakInv_start (now f l : ℚ) (s : AppState) :
    BreakInv (start_session now f l s) := by
  apply breakInv_update
  constructor <;> simp

lemma breakInv_pause (now : ℚ) {s : AppState} (h : BreakInv s) :
    BreakInv (pause_session now s) := by
  obtain ⟨h1, h2⟩ := h
  cases hr : s.session_running with
  | false =>
    simp only [pause_session, hr, Bool.false_eq_true, if_false]
    exact ⟨h1, h2⟩
  | true =>
    cases hp : s.session_paused with
    | false =>
      simp only [pause_session, hr, hp, Bool.not_false, if_true]
      apply breakInv_update
      constructor <;> simp_all
    | true =>
      simp only [pause_session, hr, hp, Bool.not_true, Bool.false_eq_true, if_true, if_false]
      apply breakInv_update
      constructor <;> simp_all

lemma breakInv_stop (now : ℚ) {s : AppState} (h : BreakInv s) :
    BreakInv (stop_session now s) := by
  obtain ⟨h1, h2⟩ := h
  cases hr : s.session_running with
  | false =>
    simp only [stop_session, hr, Bool.false_eq_true, if_false]
    exact ⟨h1, h2⟩
  | true =>
    cases hp : s.session_paused with
    | false =>
      simp only [stop_session, hr, hp, Bool.not_false, if_true]
      constructor <;> simp
    | true =>
      simp only [stop_session, hr, hp, Bool.not_true, Bool.false_eq_true, if_true, if_false]
      constructor <;> simp

/-- C1, counterexample: the claimed invariant "while `in_break` is true,
`next_break_time` is absent" (and "exactly one of `{in_break,
next_break_time is set}` holds") is false.  Start a 5/5 session at
instant 0 and tick at instant 300: the break machine enters the break
but leaves the stale `next_break_time = some 300` in place, so both
`in_break` and `next_break_time` are set at once. -/
theorem break_invariant_counterexample :
    (update_timer 300 (start_session 0 5 5 initState)).1.session_running = true ∧
    (update_timer 300 (start_session 0 5 5 initState)).1.in_break = true ∧
    (update_timer 300 (start_session 0 5 5 initState)).1.next_break_time = some 300 := by
  refine ⟨?_, ?_, ?_⟩ <;> norm_num [update_timer, start_session, initState, dueAt]

/-- C1, amended: on every state reachable from the initial state by
`start_session` / `pause_session` / `update_timer` / `stop_session`,
while running `next_break_time` is always set (it is NOT cleared while
`in_break`; entering a break leaves the old value in place) and
`in_break` implies `break_end_time` is set; while not running all break
state is cleared.  Moreover `stop_session` on a running session always
clears `in_break`, `next_break_time` and `break_end_time`. -/
theorem break_schedule_invariant :
    (∀ s : AppState, Reachable s → BreakInv s) ∧
    (∀ (s : AppState) (now : ℚ), s.session_running = true →
      (stop_session now s).session_running = false ∧
      (stop_session now s).in_break = false ∧
      (stop_session now s).next_break_time = none ∧
      (stop_session now s).break_end_time = none) := by
  constructor
  · intro s h
    induction h with
    | init => constructor <;> simp [initState]
    | start now f l _ _ => exact breakInv_start now _ _ _
    | pause now _ ih => exact breakInv_pause now ih
    | tick now _ ih => exact breakInv_update now ih
    | stop now _ ih => exact breakInv_stop now ih
  · intro s now hr
    simp [stop_session, hr]

/-- Witness for `break_schedule_invariant` at a concrete reachable state
(a 5/5 session started at instant 0, then stopped at instant 9). -/
theorem break_schedule_invariant_witness :
    BreakInv (start_session 0 5 5 initState) ∧
    (stop_session 9 (start_session 0 5 5 initState)).next_break_time = none :=
  ⟨break_schedule_invariant.1 _ (Reachable.start 0 5 5 Reachable.init),
   (break_schedule_invariant.2 (start_session 0 5 5 initState) 9
      (by norm_num [start_session, update_timer, initState, dueAt])).2.2.1⟩

lemma update_timer_timing_fields (now : ℚ) (s : AppState) :
    ((update_timer now s).1.session_running = s.session_running) ∧
    ((update_timer now s).1.session_paused = s.session_paused) ∧
    ((update_timer now s).1.session_start_time = s.session_start_time) ∧
    ((update_timer now s).1.session_elapsed = s.session_elapsed) ∧
    ((update_timer now s).1.break_freq_minutes = s.break_freq_minutes) ∧
    ((update_timer now s).1.break_len_minutes = s.break_len_minutes) := by
  simp only [update_timer]
  split_ifs <;> simp

/-- C2, counterexample: `start_session` has no `Idle`-only guard, so it
is not a no-op from a non-`Idle` state.  After starting a session at
instant 0, the state is `Running` (non-`Idle`); calling `start_session`
again at instant 100 changes `session_start_time` from 0 to 100 (and
reschedules the break), so Session fields are not unchanged. -/
theorem start_noop_counterexample :
    (start_session 0 5 5 initState).session_running = true ∧
    (start_session 0 5 5 initState).session_start_time = 0 ∧
    (start_session 100 5 5 (start_session 0 5 5 initState)).session_start_time = 100 ∧
    (start_session 100 5 5 (start_session 0 5 5 initState)).next_break_time = some 400 := by
  refine ⟨?_, ?_, ?_, ?_⟩ <;>
    norm_num [start_session, update_timer, initState, dueAt]

/-- C2, amended: `start_session` is never a no-op guard-rejected call;
from every state (`Idle` or not) it unconditionally reinitialises all
Session and BreakSchedule fields: running, not paused, clock restarted
at `now` with zero accumulated seconds, chosen frequency/length stored,
no break in progress, first break due at `now + 60 * f` seconds. -/
theorem start_session_reinitializes :
    ∀ (s : AppState) (now f l : ℚ), 0 < f →
      (start_session now f l s).session_running = true ∧
      (start_session now f l s).session_paused = false ∧
      (start_session now f l s).session_start_time = now ∧
      (start_session now f l s).session_elapsed = 0 ∧
      (start_session now f l s).break_freq_minutes = f ∧
      (start_session now f l s).break_len_minutes = l ∧
      (start_session now f l s).in_break = false ∧
      (start_session now f l s).next_break_time = some (now + 60 * f) ∧
      (start_session now f l s).break_end_time = none := by
  intro s now f l hf
  have hdue : ¬(now + 60 * f ≤ now) := by linarith
  simp [start_session, update_timer, dueAt, hdue]

/-- Witness for `start_session_reinitializes`: restarting from a running
(non-`Idle`) state at instant 7 with a 5-minute frequency. -/
theorem start_session_reinitializes_witness :
    (start_session 7 5 10 (start_session 0 5 5 initState)).session_start_time = 7 ∧
    (start_session 7 5 10 (start_session 0 5 5 initState)).next_break_time = some 307 :=
  ⟨(start_session_reinitializes (start_session 0 5 5 initState) 7 5 10 (by norm_num)).2.2.1,
   by
    have h := (start_session_reinitializes (start_session 0 5 5 initState) 7 5 10
      (by norm_num)).2.2.2.2.2.2.2.1
    rw [h]
    norm_num⟩

/-- C5, counterexample: a `break_freq_minutes` value of 99 is outside
the supported set `{1, 5, 10, 15, 30}`, yet `start_session` does not
reject it: from the idle initial state it mutates the Session and
BreakSchedule state (the session becomes running and a break is
scheduled 99 minutes out using the unsupported value). -/
theorem invalid_config_counterexample :
    (99 : ℚ) ∉ ([1, 5, 10, 15, 30] : List ℚ) ∧
    initState.session_running = false ∧
    (start_session 0 99 99 initState).session_running = true ∧
    (start_session 0 99 99 initState).break_freq_minutes = 99 ∧
    (start_session 0 99 99 initState).next_break_time = some 5940 := by
  refine ⟨by norm_num, rfl, ?_, ?_, ?_⟩ <;>
    norm_num [start_session, update_timer, initState, dueAt]

/-- C5, amended: the session control surface performs no validation of
`break_freq_minutes` / `break_len_minutes`: for every value (inside or
outside the supported set `{1, 5, 10, 15, 30}`) `start_session` accepts
it, stores it, and mutates the session state to running.  The supported
set is enforced only by the read-only setup combo boxes of the UI. -/
theorem start_session_no_validation :
    ∀ (s : AppState) (now f l : ℚ),
      (start_session now f l s).break_freq_minutes = f ∧
      (start_session now f l s).break_len_minutes = l ∧
      (start_session now f l s).session_running = true := by
  intro s now f l
  refine ⟨?_, ?_, ?_⟩
  · rw [start_session, (update_timer_timing_fields now _).2.2.2.2.1]
  · rw [start_session, (update_timer_timing_fields now _).2.2.2.2.2]
  · rw [start_session, (update_timer_timing_fields now _).1]

/-- C3, counterexample: pausing does not delay break instants by the
pause duration.  With a 5/5 session started at instant 0, the unpaused
run enters its break at instant 300.  Pausing at 240 and resuming at 360
(a pause of d = 120) should, per the claim, delay the break entry to
instant 420; instead the resume itself evaluates the break machine
against the unshifted absolute deadline 300 and enters the break at 360,
scheduling its end at 660 (not 720). -/
theorem pause_break_freeze_counterexample :
    (update_timer 300 (start_session 0 5 5 initState)).1.in_break = true ∧
    (pause_session 360 (pause_session 240 (start_session 0 5 5 initState))).in_break = true ∧
    (pause_session 360 (pause_session 240 (start_session 0 5 5 initState))).break_end_time
      = some 660 ∧
    (360 : ℚ) ≠ 300 + 120 := by
  refine ⟨?_, ?_, ?_, by norm_num⟩ <;>
    norm_num [pause_session, start_session, update_timer, initState, dueAt]

/-- C3, amended: while paused (or idle) a tick leaves the state entirely
unchanged — break evaluation is skipped — and pausing itself does not
touch the break fields; but the scheduled instants `next_break_time` /
`break_end_time` are absolute and are never shifted by a pause.
Consequently a deadline that is already due fires at the very next
evaluation while running and not paused (in particular at the
`update_timer` call inside a resume), not `d` later. -/
theorem pause_break_absolute_deadlines :
    (∀ (s : AppState) (now : ℚ), (s.session_running && !s.session_paused) = false →
      (update_timer now s).1 = s) ∧
    (∀ (s : AppState) (now : ℚ), s.session_running = true → s.session_paused = false →
      (pause_session now s).session_paused = true ∧
      (pause_session now s).in_break = s.in_break ∧
      (pause_session now s).next_break_time = s.next_break_time ∧
      (pause_session now s).break_end_time = s.break_end_time) ∧
    (∀ (s : AppState) (now nb : ℚ), s.session_running = true → s.session_paused = false →
      s.in_break = false → s.next_break_time = some nb → nb ≤ now →
      0 < s.break_len_minutes →
      (update_timer now s).1.in_break = true ∧
      (update_timer now s).1.break_end_time = some (now + 60 * s.break_len_minutes)) ∧
    (∀ (s : AppState) (now nb : ℚ), s.session_running = true → s.session_paused = true →
      s.in_break = false → s.next_break_time = some nb → nb ≤ now →
      0 < s.break_len_minutes →
      (pause_session now s).in_break = true ∧
      (pause_session now s).break_end_time = some (now + 60 * s.break_len_minutes)) := by
  refine ⟨fun s now h => update_timer_not_active now h, ?_, ?_, ?_⟩
  · intro s now hr hp
    simp [pause_session, update_timer, hr, hp]
  · intro s now nb hr hp hib hnb hdue hlen
    have hend : ¬(now + 60 * s.break_len_minutes ≤ now) := by linarith
    simp [update_timer, hr, hp, hib, hnb, dueAt, hdue, hend]
  · intro s now nb hr hp hib hnb hdue hlen
    have hend : ¬(now + 60 * s.break_len_minutes ≤ now) := by linarith
    simp [pause_session, update_timer, hr, hp, hib, hnb, dueAt, hdue, hend]

/-- Witness for `pause_break_absolute_deadlines`: a 5/5 session started
at instant 0, paused at 240 (break fields untouched), and resumed at 360
where the already-due deadline 300 fires immediately. -/
theorem pause_break_absolute_deadlines_witness :
    (pause_session 240 (start_session 0 5 5 initState)).next_break_time
      = (start_session 0 5 5 initState).next_break_time ∧
    (pause_session 360 (pause_session 240 (start_session 0 5 5 initState))).in_break = true := by
  constructor
  · exact (pause_break_absolute_deadlines.2.1 (start_session 0 5 5 initState) 240
      (by norm_num [start_session, update_timer, initState, dueAt])
      (by norm_num [start_session, update_timer, initState, dueAt])).2.2.1
  · refine (pause_break_absolute_deadlines.2.2.2
      (pause_session 240 (start_session 0 5 5 initState)) 360 300 ?_ ?_ ?_ ?_ ?_ ?_).1 <;>
      norm_num [pause_session, start_session, update_timer, initState, dueAt]

lemma ut_running (now : ℚ) (s : AppState) :
    (update_timer now s).1.session_running = s.session_running :=
  (update_timer_timing_fields now s).1

lemma ut_paused (now : ℚ) (s : AppState) :
    (update_timer now s).1.session_paused = s.session_paused :=
  (update_timer_timing_fields now s).2.1

lemma ut_start (now : ℚ) (s : AppState) :
    (update_timer now s).1.session_start_time = s.session_start_time :=
  (update_timer_timing_fields now s).2.2.1

lemma ut_elapsed (now : ℚ) (s : AppState) :
    (update_timer now s).1.session_elapsed = s.session_elapsed :=
  (update_timer_timing_fields now s).2.2.2.1

/-- The elapsed seconds that `update_timer` computes for display:
`session_elapsed + (now - session_start_time)` while running and not
paused, else the banked `session_elapsed`. -/
def displayedElapsed (s : AppState) (now : ℚ) : ℚ :=
  if s.session_running && !s.session_paused then
    s.session_elapsed + (now - s.session_start_time)
  else s.session_elapsed

/-- A timestamped control event during a session: a press of the
pause/resume toggle, a timer tick, or a press of stop. -/
inductive SEvent where
  | pauseResume (t : ℚ)
  | tick (t : ℚ)
  | stop (t : ℚ)
  deriving DecidableEq

def SEvent.time : SEvent → ℚ
  | .pauseResume t => t
  | .tick t => t
  | .stop t => t

def applyEvent (s : AppState) : SEvent → AppState
  | .pauseResume t => pause_session t s
  | .tick t => (update_timer t s).1
  | .stop t => stop_session t s

def runEvents (s : AppState) : List SEvent → AppState
  | [] => s
  | e :: es => runEvents (applyEvent s e) es

/-- The instant of the last event of a trace, starting from `t`. -/
def endTime (t : ℚ) : List SEvent → ℚ
  | [] => t
  | e :: es => endTime e.time es

/-- Ghost accounting: the wall-clock time spent in the running,
non-paused state along an event trace whose previous instant is `t`. -/
def spentRunning (s : AppState) (t : ℚ) : List SEvent → ℚ
  | [] => 0
  | e :: es =>
    (if s.session_running && !s.session_paused then e.time - t else 0)
      + spentRunning (applyEvent s e) e.time es

lemma displayedElapsed_shift (s : AppState) (t u : ℚ) :
    displayedElapsed s u = displayedElapsed s t
      + (if s.session_running && !s.session_paused then u - t else 0) := by
  unfold displayedElapsed
  split_ifs <;> ring

lemma displayedElapsed_update (now u : ℚ) (s : AppState) :
    displayedElapsed ((update_timer now s).1) u = displayedElapsed s u := by
  unfold displayedElapsed
  rw [ut_running, ut_paused, ut_start, ut_elapsed]

lemma displayedElapsed_applyEvent (s : AppState) (e : SEvent) (t : ℚ) :
    displayedElapsed (applyEvent s e) e.time = displayedElapsed s t
      + (if s.session_running && !s.session_paused then e.time - t else 0) := by
  cases e with
  | tick t' =>
    simp only [applyEvent, SEvent.time, displayedElapsed_update]
    exact displayedElapsed_shift s t t'
  | pauseResume t' =>
    cases hr : s.session_running with
    | false => simp [applyEvent, pause_session, hr, displayedElapsed, SEvent.time]
    | true =>
      cases hp : s.session_paused with
      | false =>
        simp only [applyEvent, pause_session, hr, hp, Bool.not_false, if_true, SEvent.time]
        rw [displayedElapsed_update]
        simp [displayedElapsed, hr, hp]
        ring
      | true =>
        simp only [applyEvent, pause_session, hr, hp, Bool.not_true, Bool.false_eq_true,
          if_false, if_true, SEvent.time]
        rw [displayedElapsed_update]
        simp [displayedElapsed, hr, hp]
  | stop t' =>
    cases hr : s.session_running with
    | false => simp [applyEvent, stop_session, hr, displayedElapsed, SEvent.time]
    | true =>
      cases hp : s.session_paused with
      | false =>
        simp [applyEvent, stop_session, hr, hp, displayedElapsed, SEvent.time]
        ring
      | true =>
        simp [applyEvent, stop_session, hr, hp, displayedElapsed, SEvent.time]

lemma displayedElapsed_runEvents (es : List SEvent) : ∀ (s : AppState) (t : ℚ),
    displayedElapsed (runEvents s es) (endTime t es)
      = displayedElapsed s t + spentRunning s t es := by
  induction es with
  | nil => intro s t; simp [runEvents, endTime, spentRunning]
  | cons e es ih =>
    intro s t
    simp only [runEvents, endTime, spentRunning]
    rw [ih (applyEvent s e) e.time, displayedElapsed_applyEvent s e t]
    ring

lemma pause_pause_state (s : AppState) (t : ℚ) (hr : s.session_running = true) :
    (pause_session t (pause_session t s)).session_running = true ∧
    (pause_session t (pause_session t s)).session_paused = s.session_paused := by
  cases hp : s.session_paused with
  | false => simp [pause_session, hr, hp, ut_running, ut_paused]
  | true => simp [pause_session, hr, hp, ut_running, ut_paused]

lemma pause_pause_displayed (s : AppState) (t u : ℚ) (hr : s.session_running = true) :
    displayedElapsed (pause_session t (pause_session t s)) u = displayedElapsed s u := by
  cases hp : s.session_paused with
  | false =>
    simp [pause_session, hr, hp, ut_running, ut_paused, ut_elapsed, ut_start,
      displayedElapsed_update, displayedElapsed]
    ring
  | true =>
    simp [pause_session, hr, hp, ut_running, ut_paused, ut_elapsed, ut_start,
      displayedElapsed_update, displayedElapsed]

/-- C6: the elapsed time reported by a tick is
`session_elapsed + (now - session_start_time)` while running and not
paused, else `session_elapsed`; for any trace of pause/resume toggles,
ticks and stops after a start, the reported elapsed time equals the
ghost-accounted wall-clock time spent running and not paused
(`spentRunning`); a double press of the pause/resume toggle at one
instant is lossless (the reported elapsed time at every later instant,
and the running/paused flags, are restored); and the toggle is a no-op
while no session is running (`Idle`). -/
theorem session_elapsed_accounting :
    (∀ (s : AppState) (now : ℚ),
      (update_timer now s).2 =
        if s.session_running && !s.session_paused then
          s.session_elapsed + (now - s.session_start_time)
        else s.session_elapsed) ∧
    (∀ (s : AppState) (now : ℚ), s.session_running = false → pause_session now s = s) ∧
    (∀ (s : AppState) (t u : ℚ), s.session_running = true →
      displayedElapsed (pause_session t (pause_session t s)) u = displayedElapsed s u ∧
      (pause_session t (pause_session t s)).session_running = true ∧
      (pause_session t (pause_session t s)).session_paused = s.session_paused) ∧
    (∀ (es : List SEvent) (s0 : AppState) (t0 f l : ℚ),
      displayedElapsed (runEvents (start_session t0 f l s0) es) (endTime t0 es)
        = spentRunning (start_session t0 f l s0) t0 es) := by
  refine ⟨fun s now => rfl, ?_, ?_, ?_⟩
  · intro s now h
    simp [pause_session, h]
  · intro s t u hr
    exact ⟨pause_pause_displayed s t u hr, (pause_pause_state s t hr).1,
      (pause_pause_state s t hr).2⟩
  · intro es s0 t0 f l
    rw [displayedElapsed_runEvents]
    have h0 : displayedElapsed (start_session t0 f l s0) t0 = 0 := by
      simp only [start_session, displayedElapsed_update]
      simp [displayedElapsed]
    rw [h0, zero_add]

/-- Witness for `session_elapsed_accounting`: the toggle is a no-op on
the initial idle state; a concrete trace (start at 0, pause at 100,
resume at 160, tick at 300, stop at 340) satisfies the accounting
equation; and a double toggle at instant 7 of a running session leaves
the reported elapsed time at instant 9 unchanged. -/
theorem session_elapsed_accounting_witness :
    pause_session 3 initState = initState ∧
    displayedElapsed
        (runEvents (start_session 0 5 5 initState)
          [SEvent.pauseResume 100, SEvent.pauseResume 160, SEvent.tick 300, SEvent.stop 340])
        (endTime 0
          [SEvent.pauseResume 100, SEvent.pauseResume 160, SEvent.tick 300, SEvent.stop 340])
      = spentRunning (start_session 0 5 5 initState) 0
          [SEvent.pauseResume 100, SEvent.pauseResume 160, SEvent.tick 300, SEvent.stop 340] ∧
    displayedElapsed (pause_session 7 (pause_session 7 (start_session 0 5 5 initState))) 9
      = displayedElapsed (start_session 0 5 5 initState) 9 :=
  ⟨session_elapsed_accounting.2.1 initState 3 rfl,
   session_elapsed_accounting.2.2.2 _ initState 0 5 5,
   (session_elapsed_accounting.2.2.1 (start_session 0 5 5 initState) 7 9
      (by norm_num [start_session, update_timer, initState, dueAt])).1⟩

/-- One telemetry reading, as shaped by `get_recent_health_data`
(lines 90–134).  The isoformat timestamp string is modelled as the
rational instant it denotes. -/
structure HealthSample where
  timestamp : ℚ
  focus_score : ℚ
  posture_score : ℚ
  phone_usage_seconds : ℚ
  noise_level : ℚ
  recommendations : List String
  cycle : ℤ
  agent_status : String
  deriving DecidableEq

/-- Sum of a numeric field over the window, `sum(f(d) for d in data)`. -/
def sumBy (f : HealthSample → ℚ) (data : List HealthSample) : ℚ :=
  (data.map f).sum

/-- `avg_focus = sum(...) / total_points` (line 149). -/
def avg_focus (data : List HealthSample) : ℚ :=
  sumBy (·.focus_score) data / data.length

/-- `avg_posture` (line 150). -/
def avg_posture (data : List HealthSample) : ℚ :=
  sumBy (·.posture_score) data / data.length

/-- `avg_noise` (line 152). -/
def avg_noise (data : List HealthSample) : ℚ :=
  sumBy (·.noise_level) data / data.length

/-- `total_phone_time` (line 151). -/
def total_phone_time (data : List HealthSample) : ℚ :=
  sumBy (·.phone_usage_seconds) data

/-- `recent_data = data[:total_points//3] if total_points > 6 else data`
(line 155); the window is newest-first. -/
def recent_data (data : List HealthSample) : List HealthSample :=
  if 6 < data.length then data.take (data.length / 3) else data

/-- `older_data = data[total_points//3:] if total_points > 6 else data`
(line 156). -/
def older_data (data : List HealthSample) : List HealthSample :=
  if 6 < data.length then data.drop (data.length / 3) else data

/-- `recent_focus = sum(...)/len(recent_data) if recent_data else
avg_focus` (line 158): guarded mean with fallback to the full-window
average on an empty subset. -/
def recent_focus (data : List HealthSample) : ℚ :=
  if recent_data data = [] then avg_focus data
  else sumBy (·.focus_score) (recent_data data) / (recent_data data).length

/-- `older_focus` (line 159), same guard. -/
def older_focus (data : List HealthSample) : ℚ :=
  if older_data data = [] then avg_focus data
  else sumBy (·.focus_score) (older_data data) / (older_data data).length

/-- `focus_trend` (line 161): strict comparison of the unrounded subset
means, ties giving `stable`. -/
def focus_trend (data : List HealthSample) : String :=
  if older_focus data < recent_focus data then "improving"
  else if recent_focus data < older_focus data then "declining"
  else "stable"

/-- The flattening loop over every sample's recommendation list
(lines 164–166), in window order. -/
def all_recommendations : List HealthSample → List String
  | [] => []
  | d :: rest => d.recommendations ++ all_recommendations rest

/-- One step of the counting loop `rec_counts[rec] =
rec_counts.get(rec, 0) + 1` (lines 169–171) on an insertion-ordered
association list, Python dicts preserving insertion order. -/
def bumpCount : List (String × ℕ) → String → List (String × ℕ)
  | [], s => [(s, 1)]
  | (t, c) :: rest, s =>
    if t = s then (t, c + 1) :: rest else (t, c) :: bumpCount rest s

/-- `rec_counts` built by folding the counting loop over the flattened
recommendation list; keys appear in first-seen order. -/
def rec_counts_list (recs : List String) : List (String × ℕ) :=
  recs.foldl bumpCount []

/-- `sorted(rec_counts.items(), key=lambda x: x[1], reverse=True)`
(line 173): Python's sort is stable, and with `reverse=True` equal-count
items keep their relative (first-seen) order, which is exactly
insertion sort with the total preorder "count ≥ count". -/
def sorted_by_count (l : List (String × ℕ)) : List (String × ℕ) :=
  List.insertionSort (fun a b => b.2 ≤ a.2) l

/-- `top_recommendations = sorted(...)[:5]` (line 173). -/
def top_recommendations (data : List HealthSample) : List (String × ℕ) :=
  (sorted_by_count (rec_counts_list (all_recommendations data))).take 5

/-- `_calculate_health_grade` (lines 243–261). -/
def calculate_health_grade (focus posture phone_time noise : ℚ) : String :=
  let focus_score := focus * 100
  let posture_score := posture * 100
  let phone_penalty := min (phone_time / 300 * 20) 20
  let noise_penalty := noise * 30
  let overall := (focus_score + posture_score - phone_penalty - noise_penalty) / 2
  if 85 ≤ overall then "A"
  else if 75 ≤ overall then "B"
  else if 65 ≤ overall then "C"
  else if 55 ≤ overall then "D"
  else "F"

/-- The fields of the `'status': 'success'` dict built by
`get_health_summary` (lines 177–204) that carry aggregation content.
The purely presentational `live_data` gauges and the `metrics`
percentage block are not modelled. -/
structure HealthSummaryData where
  data_points : ℕ
  time_range_hours : ℚ
  avg_focus_score : ℚ
  avg_posture_score : ℚ
  avg_noise_level : ℚ
  total_phone_seconds : ℚ
  total_phone_minutes : ℚ
  focus_trend : String
  recent_focus : ℚ
  older_focus : ℚ
  top_recommendations : List (String × ℕ)
  health_grade : String
  last_updated : Option ℚ
  deriving DecidableEq

/-- A summary is either the degraded `{'status': 'no_data', 'message':
...}` dict (lines 141–144) or the success dict. -/
inductive HealthSummary where
  | no_data (message : String)
  | success (d : HealthSummaryData)
  deriving DecidableEq

/-- The `'status'` entry of the returned dict. -/
def summaryStatus : HealthSummary → String
  | .no_data _ => "no_data"
  | .success _ => "success"

/-- The success dict of `get_health_summary` (lines 177–204). -/
def summary_success (data : List HealthSample) (hours : ℚ) : HealthSummaryData :=
  { data_points := data.length
    time_range_hours := hours
    avg_focus_score := pyRound (avg_focus data) 3
    avg_posture_score := pyRound (avg_posture data) 3
    avg_noise_level := pyRound (avg_noise data) 3
    total_phone_seconds := pyRound (total_phone_time data) 1
    total_phone_minutes := pyRound (total_phone_time data / 60) 1
    focus_trend := focus_trend data
    recent_focus := pyRound (recent_focus data) 3
    older_focus := pyRound (older_focus data) 3
    top_recommendations := top_recommendations data
    health_grade := calculate_health_grade (avg_focus data) (avg_posture data)
      (total_phone_time data) (avg_noise data)
    last_updated := data.head?.map (·.timestamp) }

/-- The aggregation core of `get_health_summary` (lines 136–204) on an
already-fetched window: `no_data` on an empty window, else the success
dict. -/
def summarize (data : List HealthSample) (hours : ℚ) : HealthSummary :=
  if data = [] then .no_data "No health data available"
  else .success (summary_success data hours)

/-- The streams of `random.uniform` / `random.choice` draws consumed by
`_generate_sample_data`, one of each per loop index. -/
structure RandomStream where
  focus : ℕ → ℚ
  posture : ℕ → ℚ
  phone : ℕ → ℚ
  noise : ℕ → ℚ
  choice : ℕ → ℕ

/-- The four candidate recommendation lists of `_generate_sample_data`
(lines 277–282). -/
def rec_options : List (List String) :=
  [["🎯 Focus on alignment", "✅ Good posture"],
   ["🔴 Neck flexion critical - Raise monitor", "🟡 Minor shoulder imbalance"],
   ["📱 Brief phone check", "🌟 Excellent posture!"],
   []]

/-- `_generate_sample_data` (lines 262–287): 20 demo samples, 5 minutes
apart going backwards from `base_time`, with rounded random scores. -/
def generate_sample_data (base_time : ℚ) (rng : RandomStream) : List HealthSample :=
  (List.range 20).map fun (i : ℕ) =>
    { timestamp := base_time - (i : ℚ) * 300
      focus_score := pyRound (rng.focus i) 3
      posture_score := pyRound (rng.posture i) 3
      phone_usage_seconds := pyRound (rng.phone i) 1
      noise_level := pyRound (rng.noise i) 3
      recommendations := (rec_options.get? (rng.choice i % 4)).getD []
      cycle := 100 - (i : ℤ)
      agent_status := "operational" }

/-- `get_recent_health_data` (lines 90–134): `cloud = none` models a
missing cloud-logging client, `some (Except.error _)` a raised fetch
exception, `some (Except.ok entries)` a successful query.  Both failure
paths fall back to `_generate_sample_data`. -/
def get_recent_health_data (cloud : Option (Except Unit (List HealthSample)))
    (base_time : ℚ) (rng : RandomStream) : List HealthSample :=
  match cloud with
  | none => generate_sample_data base_time rng
  | some (Except.error _) => generate_sample_data base_time rng
  | some (Except.ok entries) => entries

/-- `get_health_summary` (lines 136–204): fetch, then aggregate. -/
def get_health_summary (cloud : Option (Except Unit (List HealthSample)))
    (base_time : ℚ) (rng : RandomStream) (hours : ℚ) : HealthSummary :=
  summarize (get_recent_health_data cloud base_time rng) hours

/-- A concrete random stream for closed evaluations. -/
def demoRng : RandomStream :=
  { focus := fun _ => 1/2
    posture := fun _ => 1/2
    phone := fun _ => 1/2
    noise := fun _ => 1/2
    choice := fun _ => 0 }

/-- C4, counterexample: a failing sample source is NOT treated as an
empty sequence.  When the fetch raises (`some (Except.error ())`) — and
likewise when no cloud client exists (`none`) — `get_recent_health_data`
substitutes 20 generated demo samples, so `get_health_summary` returns a
`success` summary, not `no_data`. -/
theorem fetch_failure_counterexample :
    summaryStatus (get_health_summary (some (Except.error ())) 0 demoRng 24) = "success" ∧
    summaryStatus (get_health_summary none 0 demoRng 24) = "success" ∧
    "success" ≠ "no_data" := by
  refine ⟨?_, ?_, by decide⟩ <;> rfl

/-- C4, amended: `summarize` on an empty window returns the `no_data`
summary (and, being a total function, never raises), and an empty
successful fetch propagates to `no_data`; but on a fetch failure (no
client, or a raised exception) the code substitutes 20 generated demo
samples and returns a `success` summary instead of `no_data`. -/
theorem no_data_and_fetch_fallback :
    (∀ hours : ℚ, summarize [] hours = .no_data "No health data available") ∧
    (∀ (b hours : ℚ) (rng : RandomStream),
      get_health_summary (some (Except.ok [])) b rng hours
        = .no_data "No health data available") ∧
    (∀ (b : ℚ) (rng : RandomStream), (generate_sample_data b rng).length = 20) ∧
    (∀ (b hours : ℚ) (rng : RandomStream),
      summaryStatus (get_health_summary none b rng hours) = "success" ∧
      summaryStatus (get_health_summary (some (Except.error ())) b rng hours) = "success") := by
  have hlen : ∀ (b : ℚ) (rng : RandomStream), (generate_sample_data b rng).length = 20 := by
    intro b rng
    simp [generate_sample_data]
  have hne : ∀ (b : ℚ) (rng : RandomStream), generate_sample_data b rng ≠ [] := by
    intro b rng he
    have := congrArg List.length he
    rw [hlen] at this
    simp at this
  refine ⟨fun hours => rfl, fun b hours rng => rfl, hlen, ?_⟩
  intro b hours rng
  constructor <;>
    simp [get_health_summary, get_recent_health_data, summarize, hne b rng, summaryStatus]

lemma focus_trend_of_lt {data : List HealthSample}
    (h : older_focus data < recent_focus data) : focus_trend data = "improving" := by
  simp [focus_trend, h]

lemma focus_trend_of_gt {data : List HealthSample}
    (h : recent_focus data < older_focus data) : focus_trend data = "declining" := by
  simp [focus_trend, h, lt_asymm h]

lemma focus_trend_of_eq {data : List HealthSample}
    (h : recent_focus data = older_focus data) : focus_trend data = "stable" := by
  simp [focus_trend, h]

/-- C7: the trend splits the newest-first window into the first
`count / 3` samples and the remainder when `count > 6`, and otherwise
both subsets are the whole window (so `count ≤ 6` always yields
`stable`); the direction is `improving` iff the recent mean focus
strictly exceeds the older one, `declining` iff it is strictly smaller,
and `stable` on exact equality; and for a non-empty window both subsets
are non-empty, so the guarded division never divides by zero and the
empty-subset fallback to the full-window average is never needed. -/
theorem trend_classification :
    ∀ data : List HealthSample, data ≠ [] →
      (data.length ≤ 6 → recent_data data = data ∧ older_data data = data ∧
        focus_trend data = "stable") ∧
      (6 < data.length → recent_data data = data.take (data.length / 3) ∧
        older_data data = data.drop (data.length / 3)) ∧
      recent_data data ≠ [] ∧
      older_data data ≠ [] ∧
      (focus_trend data = "improving" ↔ older_focus data < recent_focus data) ∧
      (focus_trend data = "declining" ↔ recent_focus data < older_focus data) ∧
      (recent_focus data = older_focus data → focus_trend data = "stable") := by
  intro data hne
  have himp : focus_trend data = "improving" ↔ older_focus data < recent_focus data := by
    constructor
    · intro he
      rcases lt_trichotomy (older_focus data) (recent_focus data) with h | h | h
      · exact h
      · rw [focus_trend_of_eq h.symm] at he; exact absurd he (by decide)
      · rw [focus_trend_of_gt h] at he; exact absurd he (by decide)
    · exact focus_trend_of_lt
  have hdec : focus_trend data = "declining" ↔ recent_focus data < older_focus data := by
    constructor
    · intro he
      rcases lt_trichotomy (older_focus data) (recent_focus data) with h | h | h
      · rw [focus_trend_of_lt h] at he; exact absurd he (by decide)
      · rw [focus_trend_of_eq h.symm] at he; exact absurd he (by decide)
      · exact h
    · exact focus_trend_of_gt
  have hsmall : data.length ≤ 6 → recent_data data = data ∧ older_data data = data := by
    intro h6
    constructor <;> simp [recent_data, older_data, not_lt.2 h6]
  refine ⟨?_, ?_, ?_, ?_, himp, hdec, focus_trend_of_eq⟩
  · intro h6
    obtain ⟨h1, h2⟩ := hsmall h6
    refine ⟨h1, h2, ?_⟩
    apply focus_trend_of_eq
    rw [recent_focus, older_focus, h1, h2]
  · intro h6
    constructor <;> simp [recent_data, older_data, h6]
  · rw [recent_data]
    split_ifs with h6
    · apply List.ne_nil_of_length_pos
      rw [List.length_take]
      have h3 : 0 < data.length / 3 := Nat.div_pos (by omega) (by omega)
      have h0 : 0 < data.length := by omega
      omega
    · exact hne
  · rw [older_data]
    split_ifs with h6
    · apply List.ne_nil_of_length_pos
      rw [List.length_drop]
      have h3 : data.length / 3 < data.length := Nat.div_lt_self (by omega) (by omega)
      omega
    · exact hne

/-- A sample with the given timestamp, focus, posture, phone seconds,
noise, and recommendations. -/
def mkSample (ts f p ph nz : ℚ) (recs : List String) : HealthSample :=
  { timestamp := ts
    focus_score := f
    posture_score := p
    phone_usage_seconds := ph
    noise_level := nz
    recommendations := recs
    cycle := 0
    agent_status := "operational" }

/-- Seven samples, newest first: two with focus 9/10 followed by five
with focus 1/2, so the recent third clearly beats the older remainder. -/
def trendSamples : List HealthSample :=
  [mkSample 0 (9/10) (1/2) 0 0 [], mkSample (-300) (9/10) (1/2) 0 0 [],
   mkSample (-600) (1/2) (1/2) 0 0 [], mkSample (-900) (1/2) (1/2) 0 0 [],
   mkSample (-1200) (1/2) (1/2) 0 0 [], mkSample (-1500) (1/2) (1/2) 0 0 [],
   mkSample (-1800) (1/2) (1/2) 0 0 []]

/-- Witness for `trend_classification` on `trendSamples` (7 samples, so
the recent subset is the first 7 / 3 = 2 samples, and the higher recent
mean classifies as improving). -/
theorem trend_classification_witness :
    trendSamples.length = 7 ∧
    recent_data trendSamples = trendSamples.take (trendSamples.length / 3) ∧
    focus_trend trendSamples = "improving" := by
  have hne : trendSamples ≠ [] := by simp [trendSamples]
  have h := trend_classification trendSamples hne
  refine ⟨rfl, (h.2.1 (by norm_num [trendSamples])).1, h.2.2.2.2.1.mpr ?_⟩
  norm_num [older_focus, recent_focus, older_data, recent_data, avg_focus, sumBy,
    trendSamples, mkSample]
  rw [if_neg (by simp), if_neg (by simp)]
  norm_num

/-- The local variable `overall` of `_calculate_health_grade`
(line 250). -/
def overall_score (f p ph nz : ℚ) : ℚ :=
  (f * 100 + p * 100 - min (ph / 300 * 20) 20 - nz * 30) / 2

/-- The `'health_grade'` entry of the returned dict. -/
def summaryGrade : HealthSummary → Option String
  | .no_data _ => none
  | .success d => some d.health_grade

lemma calculate_health_grade_eq (f p ph nz : ℚ) :
    calculate_health_grade f p ph nz =
      if 85 ≤ overall_score f p ph nz then "A"
      else if 75 ≤ overall_score f p ph nz then "B"
      else if 65 ≤ overall_score f p ph nz then "C"
      else if 55 ≤ overall_score f p ph nz then "D"
      else "F" := rfl

/-- C8: the summary's grade is `_calculate_health_grade` applied to the
unrounded means and total; the grade is determined by
`overall = (focus*100 + posture*100 - min(phone/300*20, 20) -
noise*30) / 2` with bands `[85, ∞) → A`, `[75, 85) → B`, `[65, 75) → C`,
`[55, 65) → D`, `(-∞, 55) → F` (lower bounds inclusive), and the
boundary cases `overall = 85 → A`, `84.999 → B`, `55 → D`,
`54.999 → F` hold. -/
theorem health_grade_bands :
    (∀ (data : List HealthSample) (hours : ℚ), data ≠ [] →
      summaryGrade (summarize data hours)
        = some (calculate_health_grade (avg_focus data) (avg_posture data)
            (total_phone_time data) (avg_noise data))) ∧
    (∀ f p ph nz : ℚ,
      (85 ≤ overall_score f p ph nz → calculate_health_grade f p ph nz = "A") ∧
      (75 ≤ overall_score f p ph nz → overall_score f p ph nz < 85 →
        calculate_health_grade f p ph nz = "B") ∧
      (65 ≤ overall_score f p ph nz → overall_score f p ph nz < 75 →
        calculate_health_grade f p ph nz = "C") ∧
      (55 ≤ overall_score f p ph nz → overall_score f p ph nz < 65 →
        calculate_health_grade f p ph nz = "D") ∧
      (overall_score f p ph nz < 55 → calculate_health_grade f p ph nz = "F")) ∧
    calculate_health_grade (85/100) (85/100) 0 0 = "A" ∧
    calculate_health_grade (84999/100000) (84999/100000) 0 0 = "B" ∧
    calculate_health_grade (55/100) (55/100) 0 0 = "D" ∧
    calculate_health_grade (54999/100000) (54999/100000) 0 0 = "F" := by
  refine ⟨?_, ?_, ?_, ?_, ?_, ?_⟩
  · intro data hours h
    simp [summarize, h, summaryGrade, summary_success]
  · intro f p ph nz
    rw [calculate_health_grade_eq]
    refine ⟨?_, ?_, ?_, ?_, ?_⟩ <;> intros <;> split_ifs <;> first | rfl | linarith
  all_goals norm_num [calculate_health_grade, min_def]

/-- Witness for `health_grade_bands`: the summary grade of the concrete
seven-sample window, and the A band at exactly 85. -/
theorem health_grade_bands_witness :
    summaryGrade (summarize trendSamples 24)
      = some (calculate_health_grade (avg_focus trendSamples) (avg_posture trendSamples)
          (total_phone_time trendSamples) (avg_noise trendSamples)) ∧
    calculate_health_grade (17/20) (17/20) 0 0 = "A" :=
  ⟨health_grade_bands.1 trendSamples 24 (by simp [trendSamples]),
   (health_grade_bands.2.1 (17/20) (17/20) 0 0).1 (by norm_num [overall_score, min_def])⟩

instance : IsTotal (String × ℕ) (fun a b => b.2 ≤ a.2) :=
  ⟨fun a b => le_total b.2 a.2⟩

instance : IsTrans (String × ℕ) (fun a b => b.2 ≤ a.2) :=
  ⟨fun _ _ _ hab hbc => le_trans hbc hab⟩

/-- `rec_counts.get(rec, 0)`: the count stored for a key, 0 if absent. -/
def countOf : List (String × ℕ) → String → ℕ
  | [], _ => 0
  | (t, c) :: rest, s => if t = s then c else countOf rest s

/-- The insertion (first-seen) order of dict keys. -/
def firstSeen (recs : List String) : List String :=
  recs.foldl (fun acc s => if s ∈ acc then acc else acc ++ [s]) []

lemma countOf_bumpCount (l : List (String × ℕ)) (r' s : String) :
    countOf (bumpCount l r') s = countOf l s + (if r' = s then 1 else 0) := by
  induction l with
  | nil => simp [bumpCount, countOf]
  | cons p rest ih =>
    obtain ⟨t, c⟩ := p
    by_cases ht : t = r'
    · subst ht
      by_cases hs : t = s
      · subst hs; simp [bumpCount, countOf]
      · simp [bumpCount, countOf, hs]
    · by_cases hs : t = s
      · subst hs
        have hrs : r' ≠ t := fun he => ht he.symm
        simp [bumpCount, countOf, ht, hrs]
      · simp [bumpCount, countOf, ht, hs, ih]

lemma countOf_foldl (recs : List String) :
    ∀ acc s, countOf (recs.foldl bumpCount acc) s = countOf acc s + recs.count s := by
  induction recs with
  | nil => intro acc s; simp
  | cons r' rest ih =>
    intro acc s
    rw [List.foldl_cons, ih, countOf_bumpCount, List.count_cons]
    by_cases h : r' = s <;> simp [h] <;> omega

lemma map_fst_bumpCount (l : List (String × ℕ)) (s : String) :
    (bumpCount l s).map Prod.fst =
      if s ∈ l.map Prod.fst then l.map Prod.fst else l.map Prod.fst ++ [s] := by
  induction l with
  | nil => simp [bumpCount]
  | cons p rest ih =>
    obtain ⟨t, c⟩ := p
    by_cases ht : t = s
    · subst ht; simp [bumpCount]
    · have hne : s ≠ t := fun he => ht he.symm
      simp only [bumpCount, ht, if_false, List.map_cons, ih, List.mem_cons]
      by_cases hm : s ∈ rest.map Prod.fst
      · simp [hm, hne]
      · simp [hm, hne]

lemma map_fst_foldl (recs : List String) :
    ∀ acc, (recs.foldl bumpCount acc).map Prod.fst =
      recs.foldl (fun a s => if s ∈ a then a else a ++ [s]) (acc.map Prod.fst) := by
  induction recs with
  | nil => intro acc; simp
  | cons r' rest ih =>
    intro acc
    rw [List.foldl_cons, ih, List.foldl_cons, map_fst_bumpCount]

lemma filter_orderedInsert_of_ne (c : ℕ) (xs : String) (xc : ℕ)
    (l : List (String × ℕ)) (hx : xc ≠ c) :
    (List.orderedInsert (fun a b => b.2 ≤ a.2) (xs, xc) l).filter (fun p => p.2 == c)
      = l.filter (fun p => p.2 == c) := by
  induction l with
  | nil => simp [List.orderedInsert, List.filter_cons, hx]
  | cons b l ih =>
    by_cases hr : b.2 ≤ xc
    · simp [List.orderedInsert, hr, List.filter_cons, hx]
    · simp only [List.orderedInsert, hr, if_false, List.filter_cons]
      rw [ih]

lemma filter_orderedInsert_of_eq (xs : String) (xc : ℕ) (l : List (String × ℕ)) :
    (List.orderedInsert (fun a b => b.2 ≤ a.2) (xs, xc) l).filter (fun p => p.2 == xc)
      = (xs, xc) :: l.filter (fun p => p.2 == xc) := by
  induction l with
  | nil => simp [List.orderedInsert, List.filter_cons]
  | cons b l ih =>
    by_cases hr : b.2 ≤ xc
    · simp [List.orderedInsert, hr, List.filter_cons]
    · have hb : (b.2 == xc) = false := by
        simp only [beq_eq_false_iff_ne, ne_eq]
        intro he
        exact hr he.le
      simp only [List.orderedInsert, hr, if_false, List.filter_cons, hb]
      rw [ih]
      simp

lemma filter_insertionSort_count (c : ℕ) (l : List (String × ℕ)) :
    (List.insertionSort (fun a b => b.2 ≤ a.2) l).filter (fun p => p.2 == c)
      = l.filter (fun p => p.2 == c) := by
  induction l with
  | nil => rfl
  | cons x l ih =>
    obtain ⟨xs, xc⟩ := x
    simp only [List.insertionSort]
    by_cases hx : xc = c
    · subst hx
      rw [filter_orderedInsert_of_eq xs xc _, ih]
      simp [List.filter_cons]
    · rw [filter_orderedInsert_of_ne c xs xc _ hx, ih]
      simp [List.filter_cons, hx]

/-- C9: `top_recommendations` keeps at most 5 entries of the stable
descending-by-count sort of the insertion-ordered count table built by
exact string match over the flattened recommendation lists: its length
never exceeds 5, it is sorted by non-increasing count, the sort is a
permutation of the count table, equal-count entries keep the table's
order (which is first-seen order, the table's keys being the first-seen
key sequence), and each key's count is its number of occurrences in the
flattened list. -/
theorem top_recommendations_spec :
    ∀ data : List HealthSample,
      (top_recommendations data).length ≤ 5 ∧
      List.Pairwise (fun a b => b.2 ≤ a.2) (top_recommendations data) ∧
      List.Perm (sorted_by_count (rec_counts_list (all_recommendations data)))
        (rec_counts_list (all_recommendations data)) ∧
      (∀ c : ℕ, (sorted_by_count (rec_counts_list (all_recommendations data))).filter
            (fun p => p.2 == c)
          = (rec_counts_list (all_recommendations data)).filter (fun p => p.2 == c)) ∧
      (∀ s : String, countOf (rec_counts_list (all_recommendations data)) s
        = (all_recommendations data).count s) ∧
      (rec_counts_list (all_recommendations data)).map Prod.fst
        = firstSeen (all_recommendations data) := by
  intro data
  refine ⟨?_, ?_, ?_, ?_, ?_, ?_⟩
  · rw [top_recommendations]
    rw [List.length_take]
    exact min_le_left _ _
  · rw [top_recommendations]
    exact (List.sorted_insertionSort _ _).sublist (List.take_sublist _ _)
  · exact List.perm_insertionSort _ _
  · intro c
    exact filter_insertionSort_count c _
  · intro s
    rw [rec_counts_list, countOf_foldl]
    simp [countOf]
  · rw [rec_counts_list, firstSeen, map_fst_foldl]
    simp

def summaryAvgFocus : HealthSummary → Option ℚ
  | .no_data _ => none
  | .success d => some d.avg_focus_score

def summaryAvgPosture : HealthSummary → Option ℚ
  | .no_data _ => none
  | .success d => some d.avg_posture_score

def summaryAvgNoise : HealthSummary → Option ℚ
  | .no_data _ => none
  | .success d => some d.avg_noise_level

def summaryPhoneSeconds : HealthSummary → Option ℚ
  | .no_data _ => none
  | .success d => some d.total_phone_seconds

def summaryPhoneMinutes : HealthSummary → Option ℚ
  | .no_data _ => none
  | .success d => some d.total_phone_minutes

def summaryRecentFocus : HealthSummary → Option ℚ
  | .no_data _ => none
  | .success d => some d.recent_focus

def summaryOlderFocus : HealthSummary → Option ℚ
  | .no_data _ => none
  | .success d => some d.older_focus

def summaryTrendDir : HealthSummary → Option String
  | .no_data _ => none
  | .success d => some d.focus_trend

lemma focus_trend_improving_iff (data : List HealthSample) :
    focus_trend data = "improving" ↔ older_focus data < recent_focus data := by
  constructor
  · intro he
    rcases lt_trichotomy (older_focus data) (recent_focus data) with h | h | h
    · exact h
    · rw [focus_trend_of_eq h.symm] at he; exact absurd he (by decide)
    · rw [focus_trend_of_gt h] at he; exact absurd he (by decide)
  · exact focus_trend_of_lt

/-- Seven samples, newest first, whose recent mean 0.123 and older mean
0.1229992 both round to 0.123 at 3 decimals while differing exactly. -/
def roundingSamples : List HealthSample :=
  [mkSample 0 (123/1000) (1/2) 0 0 [], mkSample (-300) (123/1000) (1/2) 0 0 [],
   mkSample (-600) (123/1000) (1/2) 0 0 [], mkSample (-900) (123/1000) (1/2) 0 0 [],
   mkSample (-1200) (123/1000) (1/2) 0 0 [], mkSample (-1500) (123/1000) (1/2) 0 0 [],
   mkSample (-1800) (122996/1000000) (1/2) 0 0 []]

/-- C10: for every non-empty window the summary's averages and
recent/older focus fields are the 3-decimal roundings of the exact
means, the phone totals are 1-decimal roundings, but the trend direction
is decided on the unrounded means; hence on `roundingSamples` the
summary reports `recent_focus = older_focus` while the direction is
`improving`. -/
theorem rounding_vs_direction :
    (∀ (data : List HealthSample) (hours : ℚ), data ≠ [] →
      summaryAvgFocus (summarize data hours) = some (pyRound (avg_focus data) 3) ∧
      summaryAvgPosture (summarize data hours) = some (pyRound (avg_posture data) 3) ∧
      summaryAvgNoise (summarize data hours) = some (pyRound (avg_noise data) 3) ∧
      summaryPhoneSeconds (summarize data hours) = some (pyRound (total_phone_time data) 1) ∧
      summaryPhoneMinutes (summarize data hours)
        = some (pyRound (total_phone_time data / 60) 1) ∧
      summaryRecentFocus (summarize data hours) = some (pyRound (recent_focus data) 3) ∧
      summaryOlderFocus (summarize data hours) = some (pyRound (older_focus data) 3) ∧
      (summaryTrendDir (summarize data hours) = some "improving" ↔
        older_focus data < recent_focus data)) ∧
    summaryRecentFocus (summarize roundingSamples 24)
      = summaryOlderFocus (summarize roundingSamples 24) ∧
    summaryTrendDir (summarize roundingSamples 24) = some "improving" := by
  have hmain : ∀ (data : List HealthSample) (hours : ℚ), data ≠ [] →
      summaryAvgFocus (summarize data hours) = some (pyRound (avg_focus data) 3) ∧
      summaryAvgPosture (summarize data hours) = some (pyRound (avg_posture data) 3) ∧
      summaryAvgNoise (summarize data hours) = some (pyRound (avg_noise data) 3) ∧
      summaryPhoneSeconds (summarize data hours) = some (pyRound (total_phone_time data) 1) ∧
      summaryPhoneMinutes (summarize data hours)
        = some (pyRound (total_phone_time data / 60) 1) ∧
      summaryRecentFocus (summarize data hours) = some (pyRound (recent_focus data) 3) ∧
      summaryOlderFocus (summarize data hours) = some (pyRound (older_focus data) 3) ∧
      (summaryTrendDir (summarize data hours) = some "improving" ↔
        older_focus data < recent_focus data) := by
    intro data hours h
    refine ⟨?_, ?_, ?_, ?_, ?_, ?_, ?_, ?_⟩ <;>
      simp [summarize, h, summary_success, summaryAvgFocus, summaryAvgPosture,
        summaryAvgNoise, summaryPhoneSeconds, summaryPhoneMinutes, summaryRecentFocus,
        summaryOlderFocus, summaryTrendDir, focus_trend_improving_iff]
  have hne : roundingSamples ≠ [] := by simp [roundingSamples]
  have hrec : recent_focus roundingSamples = 123/1000 := by
    norm_num [recent_focus, recent_data, avg_focus, sumBy, roundingSamples, mkSample]
    simp
  have hold : older_focus roundingSamples = 1229992/10000000 := by
    norm_num [older_focus, older_data, avg_focus, sumBy, roundingSamples, mkSample]
    simp
  refine ⟨hmain, ?_, ?_⟩
  · rw [(hmain roundingSamples 24 hne).2.2.2.2.2.1,
      (hmain roundingSamples 24 hne).2.2.2.2.2.2.1, hrec, hold]
    norm_num [pyRound]
  · rw [(hmain roundingSamples 24 hne).2.2.2.2.2.2.2]
    rw [hrec, hold]
    norm_num

/-- Witness for `rounding_vs_direction` at the concrete seven-sample
window. -/
theorem rounding_vs_direction_witness :
    summaryAvgFocus (summarize roundingSamples 24)
      = some (pyRound (avg_focus roundingSamples) 3) :=
  (rounding_vs_direction.1 roundingSamples 24 (by simp [roundingSamples])).1
